import Mathlib

/-!
# Verification of the mc-tools server-status core (`src/server/info.ts`)

This file gives a shallow embedding, in Lean 4, of the core functions of
`src/server/info.ts` of the Koishi-Plugin/mc-tools repository:

* `validateServerAddress` — the deny-list address validator;
* `parseServerAddress` — the host/port splitter;
* `normalizeApiResponse` — the provider-payload normalizer;
* `fetchServerStatus` — the multi-provider query pipeline (network effects
  are parameterized by the list of settled provider outcomes);
* `formatServerStatus` — the template renderer;
* a model of `Promise.allSettled` as an indexed-write fold, used to settle
  the "declaration order, not settle order" aggregation claims.

JavaScript dynamic values are embedded as the inductive type `JVal`
(including `undefined` for `undefined`); operations that can raise a runtime
`TypeError` return `Except String`.  JS numbers are embedded as `Int`
(exact; the code only handles ports, counts and latencies, far below the
2^53 double-precision bound).  `parseInt` is modelled exactly for radix 10
and for the radix-free call site (which additionally accepts a `0x` hex
prefix).  `String.prototype.trim` is modelled on the common ASCII
whitespace characters.
-/

namespace McTools

/-! ## JS string primitives -/

/-- ASCII whitespace, as trimmed/skipped by `String.prototype.trim` and
`parseInt` (the JS functions also strip rarer Unicode spaces, which never
occur in the strings this plugin handles). -/
def isWsChar (c : Char) : Bool :=
  c = ' ' || c = '\t' || c = '\n' || c = '\r'

/-- JS `String.prototype.toLowerCase` (ASCII; the full Unicode case map
agrees with this on every string the deny-list test can match). -/
def jsToLower (s : String) : String :=
  String.mk (s.data.map Char.toLower)

/-- `String.prototype.startsWith`, on character lists. -/
def listStartsWith (p : List Char) (s : List Char) : Bool :=
  p.isPrefixOf s

/-- Value of a list of decimal digit characters. -/
def digitsVal (ds : List Char) : Nat :=
  ds.foldl (fun a c => 10 * a + (c.toNat - '0'.toNat)) 0

/-- Value of a list of hexadecimal digit characters. -/
def hexDigitsVal (ds : List Char) : Nat :=
  ds.foldl (fun a c =>
    16 * a +
      (if c.isDigit then c.toNat - '0'.toNat
       else if 'a' ≤ c ∧ c ≤ 'f' then c.toNat - 'a'.toNat + 10
       else c.toNat - 'A'.toNat + 10)) 0

def isHexDigit (c : Char) : Bool :=
  c.isDigit || ('a' ≤ c && c ≤ 'f') || ('A' ≤ c && c ≤ 'F')

/-- JS `parseInt(s, 10)`: skip leading whitespace, optional sign, then the
longest decimal-digit prefix; `none` models `NaN`. -/
def jsParseInt (s : String) : Option Int :=
  let cs := s.data.dropWhile isWsChar
  match cs with
  | '-' :: rest =>
      let ds := rest.takeWhile Char.isDigit
      if ds.isEmpty then none else some (-(digitsVal ds : Int))
  | '+' :: rest =>
      let ds := rest.takeWhile Char.isDigit
      if ds.isEmpty then none else some ((digitsVal ds : Int))
  | _ =>
      let ds := cs.takeWhile Char.isDigit
      if ds.isEmpty then none else some ((digitsVal ds : Int))

/-- JS `parseInt(s)` without an explicit radix: same as radix 10 except
that a `0x`/`0X` prefix switches to hexadecimal. -/
def jsParseIntNoRadix (s : String) : Option Int :=
  let cs := s.data.dropWhile isWsChar
  let parseAbs : List Char → Option Nat := fun l =>
    match l with
    | '0' :: 'x' :: rest =>
        let ds := rest.takeWhile isHexDigit
        if ds.isEmpty then none else some (hexDigitsVal ds)
    | '0' :: 'X' :: rest =>
        let ds := rest.takeWhile isHexDigit
        if ds.isEmpty then none else some (hexDigitsVal ds)
    | _ =>
        let ds := l.takeWhile Char.isDigit
        if ds.isEmpty then none else some (digitsVal ds)
  match cs with
  | '-' :: rest => (parseAbs rest).map (fun n => -(n : Int))
  | '+' :: rest => (parseAbs rest).map (fun n => (n : Int))
  | _ => (parseAbs cs).map (fun n => (n : Int))

/-- JS `String.prototype.split` with a single-character separator:
`"".split(c)` is `[""]`, separators at the ends produce empty pieces. -/
def jsSplitChar (sep : Char) : List Char → List (List Char)
  | [] => [[]]
  | c :: cs =>
      let r := jsSplitChar sep cs
      if c = sep then [] :: r
      else
        match r with
        | h :: t => (c :: h) :: t
        | [] => [[c]]

/-- Index of the last occurrence of `c`, as in JS `lastIndexOf` (but as an
`Option` rather than `-1`). -/
def lastIdxOf (c : Char) (cs : List Char) : Option Nat :=
  match cs.reverse.findIdx? (fun x => x = c) with
  | some i => some (cs.length - 1 - i)
  | none => none

def trimLeft (cs : List Char) : List Char := cs.dropWhile isWsChar

/-- Right trim, computed structurally (keeps a character iff something
non-whitespace survives to its right, or it is non-whitespace itself). -/
def trimRight : List Char → List Char
  | [] => []
  | c :: tl =>
      match trimRight tl with
      | [] => if isWsChar c then [] else [c]
      | r => c :: r

/-- JS `String.prototype.trim` on our character lists. -/
def trimChars (cs : List Char) : List Char := trimRight (trimLeft cs)

/-- Join a list of char-lists with `'\n'`, as JS `Array.prototype.join('\n')`
does for string arrays. -/
def joinNl : List (List Char) → List Char
  | [] => []
  | [l] => l
  | l :: ls => l ++ '\n' :: joinNl ls

/-- A pending run of `k` newlines, as JS global replace of `/\n{3,}/` by
`"\n\n"` emits it: three or more collapse to exactly two. -/
def emitNlRun (k : Nat) : List Char :=
  if k ≥ 3 then ['\n', '\n'] else List.replicate k '\n'

/-- Worker for `collapseNl`: `k` newlines are pending before `cs`. -/
def collapseNlAux : List Char → Nat → List Char
  | [], k => emitNlRun k
  | c :: tl, k =>
      if c = '\n' then collapseNlAux tl (k + 1)
      else emitNlRun k ++ c :: collapseNlAux tl 0

/-- JS global replace of `/\n{3,}/` by `"\n\n"`: every maximal run of three
or more newlines collapses to exactly two. -/
def collapseNl (cs : List Char) : List Char := collapseNlAux cs 0

/-- Scanner deciding that no newline run exceeds two, given `k` newlines
immediately preceding. -/
def nlRunBound : List Char → Nat → Bool
  | [], _ => true
  | c :: tl, k =>
      if c = '\n' then
        if k ≥ 2 then false else nlRunBound tl (k + 1)
      else nlRunBound tl 0

/-- No three consecutive newlines (no two consecutive blank lines). -/
def noTripleNl (cs : List Char) : Bool := nlRunBound cs 0

/-! ## JS dynamic values -/

/-- A JavaScript runtime value as the normalizer can encounter it: every
JSON value plus `undefined` (which property access on a missing key, `?.`
on a nullish base, and `Array.prototype.map` over partial data produce). -/
inductive JVal where
  | undefined : JVal
  | null : JVal
  | bool (b : Bool) : JVal
  | num (n : Int) : JVal
  | str (s : String) : JVal
  | arr (xs : List JVal) : JVal
  | obj (fields : List (String × JVal)) : JVal

/-- JS truthiness. -/
def truthy : JVal → Bool
  | .undefined => false
  | .null => false
  | .bool b => b
  | .num n => n != 0
  | .str s => !s.isEmpty
  | .arr _ => true
  | .obj _ => true

/-- JS `a || b`. -/
def jsOr (a b : JVal) : JVal := if truthy a then a else b

def isNullish : JVal → Bool
  | .undefined => true
  | .null => true
  | _ => false

/-- JS `a ?? b`. -/
def jsCoalesce (a b : JVal) : JVal := if isNullish a then b else a

/-- Property access `v[k]`, which throws a `TypeError` on a nullish base;
on a non-object base the (data) property is `undefined`. -/
def getProp (v : JVal) (k : String) : Except String JVal :=
  match v with
  | .undefined => .error "TypeError: cannot read properties of undefined"
  | .null => .error "TypeError: cannot read properties of null"
  | .obj fields =>
      match fields.lookup k with
      | some x => .ok x
      | none => .ok .undefined
  | _ => .ok .undefined

/-- Optional-chained property access `v?.[k]`: `undefined` on a nullish
base, never throws. -/
def getPropOpt (v : JVal) (k : String) : JVal :=
  match v with
  | .undefined => .undefined
  | .null => .undefined
  | .obj fields =>
      match fields.lookup k with
      | some x => x
      | none => .undefined
  | _ => .undefined

/-- The value `getProp` yields when it does not throw (`undefined` otherwise);
`getProp v k = .ok x → getPropTotal v k = x`. -/
def getPropTotal (v : JVal) (k : String) : JVal :=
  match getProp v k with
  | .ok x => x
  | .error _ => .undefined

/-- Element stringification used by JS `Array.prototype.join`: strings stay
themselves, `null`/`undefined` become empty, numbers and booleans print,
nested arrays join with `','`, plain objects print as `[object Object]`. -/
def joinToString (v : JVal) : String :=
  match v with
  | .undefined => ""
  | .null => ""
  | .bool b => if b then "true" else "false"
  | .num n => toString n
  | .str s => s
  | .arr xs =>
      String.intercalate "," (xs.attach.map (fun x => joinToString x.1))
  | .obj _ => "[object Object]"
  decreasing_by
    have := List.sizeOf_lt_of_mem x.2
    simp only [JVal.arr.sizeOf_spec]
    omega

/-- JS `array.join(sep)` over embedded values. -/
def jsJoin (xs : List JVal) (sep : String) : String :=
  String.intercalate sep (xs.map joinToString)

/-! ## `validateServerAddress` (src/server/info.ts lines 42–62) -/

/-- The `FORBIDDEN_PATTERNS` regex list, as one Boolean test on the
lowercased input.  Each disjunct transcribes one regex literally:
anchored-`^` patterns are `startsWith`, patterns also anchored with `$`
are whole-string equality, and `/^[fd]/` is "starts with `'f'` or `'d'`"
(a character class, not the two prefixes `fd`/`fc`). -/
def forbiddenTest (s : String) : Bool :=
  let cs := s.data
  s = "localhost" ||                                -- /^localhost$/
  listStartsWith "127.".data cs ||                  -- /^127\./
  s = "0.0.0.0" ||                                  -- /^0\.0\.0\.0$/
  listStartsWith "[::]".data cs ||                  -- /^\[::\]/
  s = "::" ||                                       -- /^::$/
  listStartsWith "[::1]".data cs ||                 -- /^\[::1\]/
  listStartsWith "10.".data cs ||                   -- /^10\./
  listStartsWith "192.168.".data cs ||              -- /^(192\.168)\./
  (["172.16.", "172.17.", "172.18.", "172.19.", "172.20.", "172.21.",
    "172.22.", "172.23.", "172.24.", "172.25.", "172.26.", "172.27.",
    "172.28.", "172.29.", "172.30.", "172.31."].any
      (fun p => listStartsWith p.data cs)) ||       -- /^(172\.(1[6-9]|2[0-9]|3[0-1]))\./
  listStartsWith "169.254.".data cs ||              -- /^(169\.254)\./
  listStartsWith "fe80:".data cs ||                 -- /^fe80:/
  listStartsWith "f".data cs ||
  listStartsWith "d".data cs ||                     -- /^[fd]/
  listStartsWith "ff".data cs                       -- /^ff/

/-- `validateServerAddress`: `none` models the JS `null` rejection. -/
def validateServerAddress (input : String) : Option String :=
  let lowerAddr := jsToLower input
  if forbiddenTest lowerAddr then none
  else
    -- const portPart = lowerAddr.includes(':')
    --   ? lowerAddr.substring(lowerAddr.lastIndexOf(':') + 1) : null;
    let portPart : Option String :=
      if lowerAddr.data.contains ':' then
        match lastIdxOf ':' lowerAddr.data with
        | some i => some (String.mk (lowerAddr.data.drop (i + 1)))
        | none => none
      else none
    -- if (portPart) { ... }  — an empty suffix is falsy and skips the check
    match portPart with
    | some ps =>
        if ps.isEmpty then some input
        else
          match jsParseInt ps with
          | none => none
          | some p => if p < 1 || p > 65535 then none else some input
    | none => some input

/-! ## `parseServerAddress` (src/server/info.ts lines 100–113) -/

/-- Match of `/^\[(.+)\]:(\d+)$/`.  Because `(\d+)$` must reach the end of
the string, the digit capture can only be the maximal trailing digit run
(any earlier `]:` split leaves a `]` or `:` inside the digits); greedy
backtracking of `.+` therefore reduces to: non-empty trailing digit run
`ds`, the part `pre` before it ending in `]:`, a leading `[`, and a
non-empty host between — i.e. `pre` of length at least 4. -/
def ipv6WithPortMatch (cs : List Char) : Option (List Char × List Char) :=
  let ds := (cs.reverse.takeWhile Char.isDigit).reverse
  let pre := cs.take (cs.length - ds.length)
  if ds ≠ [] ∧ cs.head? = some '[' ∧ pre.getLast? = some ':' ∧
      pre.dropLast.getLast? = some ']' ∧ pre.length ≥ 4 then
    some (((pre.drop 1).dropLast).dropLast, ds)
  else none

/-- Match of `/^\[(.+)\]$/` (greedy `.+`): leading `[`, trailing `]`,
non-empty interior. -/
def ipv6Match (cs : List Char) : Option (List Char) :=
  if cs.head? = some '[' ∧ cs.getLast? = some ']' ∧ cs.length ≥ 3 then
    some ((cs.drop 1).dropLast)
  else none

/-- `parseServerAddress`. -/
def parseServerAddress (address : String) (defaultPort : Int) : String × Int :=
  let cs := address.data
  match ipv6WithPortMatch cs with
  | some (h, ds) => (String.mk h, (digitsVal ds : Int))
  | none =>
    match ipv6Match cs with
    | some h => (String.mk h, defaultPort)
    | none =>
      -- if (address.split(':').length > 2 && !address.endsWith(']'))
      if (jsSplitChar ':' cs).length > 2 && !(cs.getLast? = some ']' : Bool) then
        (address, defaultPort)
      else
        match lastIdxOf ':' cs with
        | some i =>
            match jsParseInt (String.mk (cs.drop (i + 1))) with
            | some p => (String.mk (cs.take i), p)
            | none => (address, defaultPort)
        | none => (address, defaultPort)

/-! ## The canonical status record, as `normalizeApiResponse` builds it

The TypeScript interface `ServerStatus` declares string/number field types,
but nothing enforces them at runtime: `normalizeApiResponse` copies
whatever the provider payload holds.  `ServerStatusU` is that runtime
shape — every field a `JVal`, `undefined` meaning the key is absent or holds
`undefined`.  The nested `version` and `players` objects are flattened
into `version_name_clean`/`version_name` and `players_online`/
`players_max`/`players_list`. -/

inductive Family where
  | java : Family
  | bedrock : Family
deriving DecidableEq

structure ServerStatusU where
  online : JVal := .undefined
  host : JVal := .undefined
  port : JVal := .undefined
  ip_address : JVal := .undefined
  eula_blocked : JVal := .undefined
  ping : JVal := .undefined
  version_name_clean : JVal := .undefined
  version_name : JVal := .undefined
  players_online : JVal := .undefined
  players_max : JVal := .undefined
  players_list : JVal := .undefined
  motd : JVal := .undefined
  icon : JVal := .undefined
  mods : JVal := .undefined
  software : JVal := .undefined
  plugins : JVal := .undefined
  srv_record : JVal := .undefined
  gamemode : JVal := .undefined
  server_id : JVal := .undefined
  edition : JVal := .undefined
  error : JVal := .undefined

/-- Line 158's test
`data.online === false || ['error','offline'].includes(data.status?.toLowerCase())`,
including the `TypeError` a non-string, non-nullish `status` raises at
`.toLowerCase()`. -/
def isOfflineCheck (data : JVal) : Except String Bool := do
  let onlineV ← getProp data "online"
  match onlineV with
  | .bool false => return true
  | _ =>
    let statusV ← getProp data "status"
    match statusV with
    | .undefined => return false    -- includes(undefined) is false
    | .null => return false     -- ?. short-circuits to undefined
    | .str s => return (jsToLower s = "error" || jsToLower s = "offline")
    | _ => .error "TypeError: data.status.toLowerCase is not a function"

/-- Line 170's `processListData`: arrays map plain strings to
`{name: s}` and keep everything else; non-arrays give `undefined`. -/
def processListData (items : JVal) : JVal :=
  match items with
  | .arr xs =>
      .arr (xs.map (fun item =>
        match item with
        | .str s => .obj [("name", .str s)]
        | x => x))
  | _ => .undefined

/-- Lines 171–179, the `motdText` IIFE.  `data` is known non-nullish here
(the offline check already read `data.online`), so the direct accesses
cannot throw and the helper is total. -/
def motdTextOf (data : JVal) : JVal :=
  let motdV := getPropOpt data "motd"
  if !truthy motdV then
    -- return data.description?.text || data.description
    let desc := getPropOpt data "description"
    jsOr (getPropOpt desc "text") desc
  else
    match motdV with
    | .str _ => motdV
    | .obj _ =>
        let textArray := jsOr (getPropOpt motdV "clean") (getPropOpt motdV "raw")
        (match textArray with
         | .arr xs => .str (jsJoin xs "\n")
         | v => v)
    | .arr _ =>
        -- typeof [] is 'object' too; an array has neither key, so
        -- textArray is undefined and is returned as-is
        let textArray := jsOr (getPropOpt motdV "clean") (getPropOpt motdV "raw")
        (match textArray with
         | .arr xs => .str (jsJoin xs "\n")
         | v => v)
    | _ => .null   -- truthy non-string non-object: falls through to `return null`

/-- Line 180's player-list expression
`data.players?.list || data.players?.sample?.map(p => p.name) || (Array.isArray(data.players) ? data.players : data.player_list)`
with JS short-circuiting: the `sample.map` (which throws on a non-array
`sample` or a nullish element) only runs when `list` is falsy.  The
`data.player_list` read is a plain access in the source, but `data` is
non-nullish whenever this runs (the offline check already read
`data.online`), so it cannot throw and is embedded with `getPropOpt`. -/
def playerListOf (data : JVal) : Except String JVal := do
  let playersV := getPropOpt data "players"
  let listV := getPropOpt playersV "list"
  if truthy listV then return listV
  else
    let sampleV := getPropOpt playersV "sample"
    let mapped : Except String JVal :=
      match sampleV with
      | .undefined => .ok .undefined
      | .null => .ok .undefined
      | .arr xs => do
          let ys ← xs.mapM (fun p => getProp p "name")
          .ok (.arr ys)
      | _ => .error "TypeError: data.players.sample.map is not a function"
    let m ← mapped
    if truthy m then return m
    else
      match playersV with
      | .arr _ => return playersV
      | _ => return getPropOpt data "player_list"

/-- Line 192's per-entry projection
`(typeof p === 'string' ? p : p.name) || ''`, which throws on a nullish
entry. -/
def playerNameOf (p : JVal) : Except String JVal := do
  let v ← match p with
    | .str _ => pure p
    | _ => getProp p "name"
  return jsOr v (.str "")

/-- Line 155's `const [hostFromAddr] = address.split(':')`. -/
def hostFromAddrDef (address : String) : String :=
  String.mk ((jsSplitChar ':' address.data).headD [])

/-- Lines 155–157: `portStr` is the second piece of `address.split(':')`
(`undefined` when there is no colon), and
`portFromAddr = parseInt(portStr) || defaultPort` (this `parseInt` call
has no radix argument). -/
def portFromAddrDef (address : String) (serverType : Family) : Int :=
  let defaultPort : Int := if serverType = .java then 25565 else 19132
  match ((jsSplitChar ':' address.data).tail.head?).map String.mk with
  | none => defaultPort            -- parseInt(undefined) is NaN
  | some ps =>
      match jsParseIntNoRadix ps with
      | some n => if n ≠ 0 then n else defaultPort
      | none => defaultPort

/-- Lines 163–168: when `finalPort` is nullish, recover an embedded port
from the host string.
`const ipv6Match = finalHost.match(/^\[(.+)\]:(\d+)$/)`;
`const hostPortMatch = finalHost.lastIndexOf(':') > finalHost.indexOf(':') ? null : finalHost.match(/^([^:]+):(\d+)$/)`;
the second regex (at most one colon present, so no ambiguity) matches a
non-empty colon-free prefix, `:`, and digits to the end.  `.match` on a
non-string `finalHost` throws. -/
def resolveHostPort (finalHost0 finalPort0 : JVal) : Except String (JVal × JVal) :=
  if isNullish finalPort0 then
    match finalHost0 with
    | .str s =>
        let cs := s.data
        let m : Option (List Char × List Char) :=
          match ipv6WithPortMatch cs with
          | some r => some r
          | none =>
              if (cs.filter (fun c => c = ':')).length > 1 then none
              else
                let pre := cs.takeWhile (fun c => c ≠ ':')
                let suf := cs.drop (pre.length + 1)
                if pre.length = 0 ∨ pre.length ≥ cs.length then none
                else if suf ≠ [] ∧ suf.all Char.isDigit then some (pre, suf)
                else none
        match m with
        | some (h, ds) => .ok (.str (String.mk h), .num (digitsVal ds : Int))
        | none => .ok (finalHost0, finalPort0)
    | _ => .error "TypeError: finalHost.match is not a function"
  else .ok (finalHost0, finalPort0)

/-- Line 192's `playerList?.map(p => (typeof p === 'string' ? p : p.name) || '')`:
`?.` short-circuits on a nullish list, `.map` throws on a non-array, and
`p.name` throws on a nullish entry. -/
def mapPlayerList (playerListV : JVal) : Except String JVal :=
  match playerListV with
  | .undefined => .ok .undefined
  | .null => .ok .undefined
  | .arr xs => do
      let ys ← xs.mapM playerNameOf
      .ok (.arr ys)
  | _ => .error "TypeError: playerList.map is not a function"

/-- `normalizeApiResponse` (lines 154–203).  The settled provider payload
`data` is arbitrary; `address` is the validated user address used as the
fallback; runtime `TypeError`s are `.error` results.  Plain property reads
off `data` after the offline check (`data.error`, `data.hostname`,
`data.port`, `data.icon`, …) are embedded with the total `getPropOpt`:
they cannot throw, because `isOfflineCheck` only succeeds after reading
`data.online`, which proves `data` non-nullish; the remaining throw sites
(`data.status?.toLowerCase()`, `finalHost.match`, the player-list maps)
stay in `Except`. -/
def normalizeApiResponse (data : JVal) (address : String) (serverType : Family) :
    Except String ServerStatusU := do
  let hostFromAddr : String := hostFromAddrDef address
  let portFromAddr : Int := portFromAddrDef address serverType
  let offline ← isOfflineCheck data
  if offline then
    return { online := .bool false, host := .str hostFromAddr,
             port := .num portFromAddr,
             players_online := .null, players_max := .null,
             error := jsOr (getPropOpt data "error") (getPropOpt data "description") }
  else
    -- let finalHost = data.hostname || data.host || data.server || hostFromAddr
    let finalHost0 : JVal :=
      jsOr (getPropOpt data "hostname")
        (jsOr (getPropOpt data "host")
          (jsOr (getPropOpt data "server") (.str hostFromAddr)))
    -- let finalPort = data.port ?? data.ipv6Port
    let finalPort0 : JVal :=
      jsCoalesce (getPropOpt data "port") (getPropOpt data "ipv6Port")
    let hp ← resolveHostPort finalHost0 finalPort0
    -- finalPort = finalPort ?? portFromAddr
    let finalPort1 : JVal := jsCoalesce hp.2 (.num portFromAddr)
    let playerListV ← playerListOf data
    let mappedList ← mapPlayerList playerListV
    let verV := getPropOpt data "version"
    let playersV := getPropOpt data "players"
    return { online := .bool true,
             host := hp.1,
             port := finalPort1,
             ip_address := jsOr (getPropOpt data "ip_address") (getPropOpt data "ip"),
             eula_blocked := getPropOpt data "eula_blocked",
             motd := motdTextOf data,
             version_name_clean := jsCoalesce (getPropOpt verV "name_clean") verV,
             version_name := jsCoalesce (getPropOpt verV "name")
               (getPropOpt (getPropOpt data "protocol") "name"),
             players_online := jsCoalesce (getPropOpt playersV "online")
               (getPropOpt playersV "now"),
             players_max := getPropOpt playersV "max",
             players_list := mappedList,
             icon := jsOr (getPropOpt data "icon") (getPropOpt data "favicon"),
             srv_record := jsOr (getPropOpt data "srv_record") (getPropOpt data "srv"),
             mods := processListData (jsOr (getPropOpt data "mods")
               (getPropOpt (getPropOpt data "modinfo") "modList")),
             software := getPropOpt data "software",
             plugins := processListData (getPropOpt data "plugins"),
             gamemode := getPropOpt data "gamemode",
             server_id := getPropOpt data "server_id",
             edition := jsOr (getPropOpt data "edition")
               (if serverType = .bedrock then .str "MCPE" else .null) }

/-! ## `Promise.allSettled` and the aggregation step (lines 131–144)

Each provider request settles with an outcome: `.ok payload` when the HTTP
request succeeded (`res.ok`) and the body decoded as JSON, `.error` for a
transport error, a non-2xx status, or an undecodable body.  `allSettled`
writes each outcome into the result array at the requesting promise's
index, in whatever temporal order the requests settle, and resolves once
all slots are written.  `collectSettled` is that mechanism; the settle
order is the event list. -/

/-- One settle event: promise index and its outcome. -/
abbrev SettleEvent := Nat × Except String JVal

/-- The `Promise.allSettled` result array for `n` promises after the given
settle events: each event writes its outcome at its promise's index. -/
def collectSettled (n : Nat) (events : List SettleEvent) :
    List (Option (Except String JVal)) :=
  events.foldl (fun acc e => acc.set e.1 (some e.2)) (List.replicate n none)

/-- Line 136's `apiResults.find(r => r.status === 'fulfilled')?.value` over
a fully-settled result array. -/
def selectFromSettled (rs : List (Option (Except String JVal))) : JVal :=
  match rs.find? (fun r => match r with | some (.ok _) => true | _ => false) with
  | some (some (.ok v)) => v
  | _ => .undefined

/-- The same selection over the outcomes in declaration order. -/
def selectFirstFulfilled (outcomes : List (Except String JVal)) : JVal :=
  match outcomes.find? (fun r => match r with | .ok _ => true | _ => false) with
  | some (.ok v) => v
  | _ => .undefined

/-- A failed-lookup / invalid-address status literal as lines 128 and 144
build it. -/
def offlineFallback (host : String) (port : Int) (msg : String) : ServerStatusU :=
  { online := .bool false, host := .str host, port := .num port,
    players_online := .null, players_max := .null, error := .str msg }

/-- `fetchServerStatus` (lines 122–145).  The network is parameterized:
`apiResults` is the declaration-ordered settled outcome of each configured
endpoint of the requested family (what `Promise.allSettled` returns, per
`collectSettled`), and `pingMs` the value `pingServer` resolves with. -/
def fetchServerStatus (server : String) (forceType : Family)
    (apiResults : List (Except String JVal)) (pingMs : Int) :
    Except String ServerStatusU := do
  let serverType := forceType
  let defaultPort : Int := if serverType = .java then 25565 else 19132
  match validateServerAddress server with
  | none =>
      let hp := parseServerAddress server defaultPort
      return offlineFallback hp.1 hp.2 "无效地址"
  | some address =>
      let hp := parseServerAddress address defaultPort
      let successfulData : JVal := selectFirstFulfilled apiResults
      if truthy successfulData then
        let status ← normalizeApiResponse successfulData address serverType
        if truthy status.online then
          return { status with ping := .num pingMs }
        else
          return offlineFallback hp.1 hp.2 "查询失败"
      else
        return offlineFallback hp.1 hp.2 "查询失败"

/-! ## `formatServerStatus` (lines 211–254)

The renderer consumes the canonical record at its declared TypeScript
types (`interface ServerStatus`, lines 10–36); the structure below is that
interface, with `Option` for the optional/nullable fields (for the
renderer, `null`, `undefined` and an absent key are indistinguishable: all
are falsy and `?? `-nullish) and the `version` object collapsed to the one
sub-field the renderer reads (`name_clean`). -/

structure NamedEntry where
  name : String
  version : Option String := none

structure PlayersInfo where
  online : Option Int := none
  max : Option Int := none
  list : Option (List String) := none

structure SrvRecordT where
  host : String
  port : Int

structure ServerStatus where
  online : Bool
  host : String
  port : Int
  ip_address : Option String := none
  eula_blocked : Option Bool := none
  ping : Option Int := none
  version_name_clean : Option String := none
  players : PlayersInfo := {}
  motd : Option String := none
  icon : Option String := none
  mods : Option (List NamedEntry) := none
  software : Option String := none
  plugins : Option (List NamedEntry) := none
  srv_record : Option SrvRecordT := none
  gamemode : Option String := none
  server_id : Option String := none
  edition : Option String := none
  error : Option String := none

/-- Truthiness of a `getValue` result (`null` and `''` are falsy). -/
def truthyS : Option String → Bool
  | none => false
  | some s => !s.isEmpty

/-- `h.image(url).toString()` of the koishi library (external to this
repository).  Modelled from the spec: "icon as an embeddable image
reference" — an image element wrapping the data URI.  Its exact text never
matters below; only that it is a non-empty string. -/
def hImage (url : String) : String := "<img src=\"" ++ url ++ "\"/>"

/-- Lines 213–218, `formatList`.  `limit` of `0` is falsy in
`list.slice(0, limit || list.length)` and in `limit && limit < list.length`,
so it behaves like no limit. -/
def formatList (list : List NamedEntry) (limit : Option Nat) : Option String :=
  if list.isEmpty then none
  else
    let trunc : Bool :=
      match limit with
      | some l => decide (l ≠ 0 ∧ l < list.length)
      | none => false
    let limited :=
      match limit with
      | some l => if l ≠ 0 then list.take l else list
      | none => list
    let text := String.intercalate ", "
      (limited.map (fun item =>
        match item.version with
        | some v => if !v.isEmpty then item.name ++ "-" ++ v else item.name
        | none => item.name))
    some (if trunc then text ++ "..." else text)

/-- Lines 219–243, `getValue`. -/
def getValue (status : ServerStatus) (name : String) (limit : Option Nat) :
    Option String :=
  match name with
  | "name" =>
      some (if status.port = 25565 ∨ status.port = 19132 then status.host
            else status.host ++ ":" ++ toString status.port)
  | "ip" => status.ip_address
  | "srv" =>
      status.srv_record.map (fun r => r.host ++ ":" ++ toString r.port)
  | "icon" =>
      match status.icon with
      | some ic =>
          if listStartsWith "data:image/png;base64,".data ic.data then some (hImage ic)
          else none
      | none => none
  | "motd" => status.motd
  | "version" => status.version_name_clean
  | "online" => status.players.online.map (fun n => toString n)
  | "max" => status.players.max.map (fun n => toString n)
  | "ping" =>
      match status.ping with
      | some p => if p ≠ -1 then some (toString p ++ "ms") else none
      | none => none
  | "software" => status.software
  | "edition" =>
      match status.edition with
      | some e =>
          if e = "MCPE" then some "基岩版"
          else if e = "MCEE" then some "教育版"
          else some e
      | none => none
  | "gamemode" => status.gamemode
  | "eulablock" => if status.eula_blocked = some true then some "是" else none
  | "serverid" => status.server_id
  | "playercount" => status.players.list.map (fun l => toString l.length)
  | "plugincount" => status.plugins.map (fun l => toString l.length)
  | "modcount" => status.mods.map (fun l => toString l.length)
  | "playerlist" =>
      match status.players.list with
      | some l => formatList (l.map (fun n => { name := n })) limit
      | none => none
  | "pluginlist" =>
      match status.plugins with
      | some l => formatList l limit
      | none => none
  | "modlist" =>
      match status.mods with
      | some l => formatList l limit
      | none => none
  | _ => none

/-! ### The placeholder scanner, `/\{([^{}:]+)(?::(\d+))?\}/g`

`matchAll`/`replace` scan left to right: at each position the pattern
either matches (and scanning resumes after the match) or the scanner
advances one character.  The pattern admits no backtracking ambiguity
(`[^{}:]+` and `\d+` are maximal-munch: any shorter take is followed by a
character that can match neither the next literal nor an extension), so a
deterministic longest-munch scanner is exact. -/

inductive Tok where
  | lit (c : Char) : Tok
  | ph (name : List Char) (limit : Option Nat) : Tok

def phNameChar (c : Char) : Bool := c ≠ '{' && c ≠ '}' && c ≠ ':'

/-- Try to match the placeholder pattern at the head of `cs`; returns the
name, the optional digit limit, and the rest of the input. -/
def tryPH (cs : List Char) : Option ((List Char × Option Nat) × List Char) :=
  match cs with
  | '{' :: rest =>
      let name := rest.takeWhile phNameChar
      if name.isEmpty then none
      else
        match rest.drop name.length with
        | '}' :: tl => some ((name, none), tl)
        | ':' :: tl2 =>
            let ds := tl2.takeWhile Char.isDigit
            if ds.isEmpty then none
            else
              match tl2.drop ds.length with
              | '}' :: tl3 => some ((name, some (digitsVal ds)), tl3)
              | _ => none
        | _ => none
  | _ => none

/-- Scanner worker, structurally recursive on a fuel bound (a successful
`tryPH` consumes at least two characters, so `cs.length` fuel always
suffices; see `tokenizeF_fuel_irrelevant`). -/
def tokenizeF : Nat → List Char → List Tok
  | 0, _ => []
  | _ + 1, [] => []
  | fuel + 1, c :: rest =>
      match tryPH (c :: rest) with
      | some ((name, lim), r) => Tok.ph name lim :: tokenizeF fuel r
      | none => Tok.lit c :: tokenizeF fuel rest

/-- Tokenize one template line under the placeholder regex. -/
def tokenize (cs : List Char) : List Tok := tokenizeF cs.length cs

/-- The placeholder list `matchAll` yields on a line. -/
def linePlaceholders (cs : List Char) : List (List Char × Option Nat) :=
  (tokenize cs).filterMap (fun t =>
    match t with
    | .ph n l => some (n, l)
    | .lit _ => none)

/-- The `line.replace(...)` substitution: placeholders become
`getValue(...) ?? ''`. -/
def substLine (status : ServerStatus) (cs : List Char) : List Char :=
  (tokenize cs).flatMap (fun t =>
    match t with
    | .lit c => [c]
    | .ph n l => ((getValue status (String.mk n) l).getD "").data)

/-- Lines 245–248, the per-line map: a line with at least one placeholder,
all of which resolve falsy, becomes the empty string; otherwise it is
substituted. -/
def processLine (status : ServerStatus) (cs : List Char) : List Char :=
  let phs := linePlaceholders cs
  if phs.length > 0 ∧ phs.all (fun p => !truthyS (getValue status (String.mk p.1) p.2)) then
    []
  else substLine status cs

/-- `formatServerStatus`.  The offline branch returns `status.error`
directly (in JS possibly `undefined`; rendered here as the empty string —
the claims below only concern online statuses). -/
def formatServerStatus (status : ServerStatus) (template : String) : String :=
  if !status.online then (status.error.getD "")
  else
    let lines := jsSplitChar '\n' template.data
    let mapped := lines.map (processLine status)
    let kept := mapped.filter (fun l => !(trimChars l).isEmpty)
    String.mk (trimChars (collapseNl (joinNl kept)))

/-! ## Specification-side definitions

These follow the spec's words (not the source) and are compared with the
source embeddings in the refinement theorems below. -/

/-- Follows spec §4.2's (a)–(e) wording for `parse`: (a) bracketed IPv6
with explicit port; (b) bracketed IPv6 with the default port; (c) more
than one colon and not ending in `]` keeps the whole string as host; (d)
split at the last colon when the suffix parses as an integer; (e) fallback
to the whole string.  (The regex matches of (a)/(b) and JS integer parsing
are shared models, since the spec describes exactly those.) -/
def specParseServerAddress (address : String) (defaultPort : Int) : String × Int :=
  let cs := address.data
  match ipv6WithPortMatch cs with
  | some (h, ds) => (String.mk h, (digitsVal ds : Int))
  | none =>
    match ipv6Match cs with
    | some h => (String.mk h, defaultPort)
    | none =>
      if cs.count ':' > 1 && !(cs.getLast? = some ']' : Bool) then
        (address, defaultPort)
      else
        match lastIdxOf ':' cs with
        | some i =>
            match jsParseInt (String.mk (cs.drop (i + 1))) with
            | some p => (String.mk (cs.take i), p)
            | none => (address, defaultPort)
        | none => (address, defaultPort)

/-- Spec-side per-line rule (C8, as amended): a line is dropped when it
has at least one placeholder all of which resolve falsy, or when its
substituted form is whitespace-only; otherwise its substituted form is
kept. -/
def renderSpecLine (status : ServerStatus) (cs : List Char) : Option (List Char) :=
  let phs := linePlaceholders cs
  let subst := substLine status cs
  if (phs.length > 0 ∧ phs.all (fun p => !truthyS (getValue status (String.mk p.1) p.2)))
      ∨ (trimChars subst).isEmpty then
    none
  else some subst

/-- Spec-side renderer built from `renderSpecLine`. -/
def renderSpec (status : ServerStatus) (template : String) : String :=
  if !status.online then (status.error.getD "")
  else
    String.mk (trimChars (collapseNl (joinNl
      ((jsSplitChar '\n' template.data).filterMap (renderSpecLine status)))))

/-- Host the offline branch of `normalizeApiResponse` reports, as claim
C10 words it: the fallback address's text strictly before its first colon
(the whole address when it has none). -/
def offlineHostOfAddress (address : String) : String :=
  String.mk (address.data.takeWhile (fun c => c ≠ ':'))

/-- Port the offline branch reports, as claim C10 words it: the text
between the first and second colons, when `parseInt` yields a non-zero
number; otherwise the family's default port. -/
def offlinePortOfAddress (address : String) (serverType : Family) : Int :=
  let defaultPort : Int := if serverType = .java then 25565 else 19132
  let rest := address.data.dropWhile (fun c => c ≠ ':')
  match rest with
  | [] => defaultPort
  | _ :: tl =>
      match jsParseIntNoRadix (String.mk (tl.takeWhile (fun c => c ≠ ':'))) with
      | some n => if n ≠ 0 then n else defaultPort
      | none => defaultPort

/-! ## Concrete records used by the claim witnesses and counterexamples -/

/-- An online Java status with five of twenty players and no latency
measurement, as in the spec's rendering example. -/
def demoStatus : ServerStatus :=
  { online := true, host := "example.com", port := 25565,
    players := { online := some 5, max := some 20 } }

/-- The `demoStatus` record with a whitespace-only MOTD. -/
def wsMotdStatus : ServerStatus := { demoStatus with motd := some " " }

/-- The `demoStatus` record with an MOTD containing a run of four
newlines (three blank lines). -/
def nlMotdStatus : ServerStatus := { demoStatus with motd := some "x\n\n\n\ny" }

/-- An offline provider payload carrying its own error text. -/
def offlinePayload : JVal :=
  .obj [("online", .bool false), ("error", .str "server is down")]

/-! # Claim theorems -/

/-- C1: the claim says a provider-reported-offline first success surfaces
an offline status carrying that provider's own error text.  In the code,
`fetchServerStatus` only returns the normalized record when
`status.online` is truthy; a provider-reported-offline record falls
through to the generic `'查询失败'` ("lookup failed") literal of line 144,
discarding the provider text that `normalizeApiResponse` had placed in
`error` (line 159).  Evaluated at the failing input: the single provider
fulfills with `{online:false, error:"server is down"}`, yet the pipeline
reports the generic message. -/
theorem C1_provider_offline_text_discarded :
    fetchServerStatus "example.com" .java [.ok offlinePayload] 0
      = .ok (offlineFallback "example.com" 25565 "查询失败")
    ∧ JVal.str "查询失败" ≠ JVal.str "server is down" :=
  ⟨rfl, by simp⟩

/-- C2: the claim says only the listed deny-list patterns (and bad ports)
reject, and in particular `demo.example.com` is accepted.  The source's
`/^[fd]/` is a character class matching any input starting with `f` or
`d`, so `demo.example.com` is rejected; and since `/^localhost$/` is
anchored at both ends against the whole lowercased input,
`localhost:25565` (whose host component is `localhost`) is accepted. -/
theorem C2_deny_list_eval :
    validateServerAddress "demo.example.com" = none
    ∧ validateServerAddress "localhost:25565" = some "localhost:25565" :=
  ⟨rfl, rfl⟩

/-- C3: the claim says `normalize` is total over arbitrary payloads,
naming a numeric `status` field and null player-list entries as tolerated
shapes.  Both raise a `TypeError` in the source: `data.status?.toLowerCase()`
calls a method a number does not have (line 158), and the player-list map
reads `.name` off a null entry (line 192). -/
theorem C3_normalize_not_total :
    normalizeApiResponse (.obj [("status", .num 5)]) "example.com" .java
      = .error "TypeError: data.status.toLowerCase is not a function"
    ∧ normalizeApiResponse
        (.obj [("players", .obj [("list", .arr [.str "a", .null])])])
        "example.com" .java
      = .error "TypeError: cannot read properties of null" :=
  ⟨rfl, rfl⟩

/-- C6 counterexample: normalizing `{online:false}` — a payload with
neither an `error` nor a `description` field — yields `players.online =
players.max = null` as claimed, but the `error` field is `undefined`
(absent), not a non-empty string: line 159's `data.error || data.description`
has no final fallback. -/
theorem C6_counterexample_error_absent :
    (normalizeApiResponse (.obj [("online", .bool false)]) "example.com" .java).map
        (fun r => (r.players_online, r.players_max, r.error))
      = .ok (.null, .null, .undefined) := rfl

/-- C7 counterexample: under the Java family with no payload edition,
line 201's `data.edition || (serverType === 'bedrock' ? 'MCPE' : null)`
stores `null` — a present null value, not an absent field — so the claim
that `edition` is absent for every Java-family payload fails. -/
theorem C7_counterexample_edition_null_not_absent :
    (normalizeApiResponse (.obj []) "example.com" .java).map ServerStatusU.edition
      = .ok .null
    ∧ JVal.null ≠ JVal.undefined :=
  ⟨rfl, by simp⟩

/-- C8 counterexample: a line whose only placeholder resolves to the
non-empty string `" "` is dropped by the code (the `.filter(line =>
line.trim().length > 0)` of line 250 removes every whitespace-only line),
while the claim says such a line is substituted and kept. -/
theorem C8_counterexample_whitespace_line_dropped :
    formatServerStatus wsMotdStatus "A\n{motd}\nB" = "A\nB"
    ∧ "A\nB" ≠ "A\n \nB" :=
  ⟨rfl, by decide⟩

/-- C9 counterexample: a template-literal run of three blank lines is
removed entirely — not collapsed to exactly one blank line — because the
blank-line filter of line 250 runs before the `\n{3,}` collapse of line
252, leaving the latter nothing to match in template-sourced text. -/
theorem C9_counterexample_template_blank_lines_removed :
    formatServerStatus demoStatus "A\n\n\n\nB" = "A\nB"
    ∧ "A\nB" ≠ "A\n\nB" :=
  ⟨rfl, by decide⟩

/-! ## Aggregation: settle order is irrelevant (C4) -/

theorem take_succ_set_self {α : Type} (acc : List α) (k : Nat) (a : α)
    (h : k < acc.length) : (acc.set k a).take (k + 1) = acc.take k ++ [a] := by
  induction acc generalizing k with
  | nil => simp at h
  | cons b tl ih =>
      cases k with
      | zero => simp
      | succ k =>
          simp only [List.set_cons_succ, List.take_succ_cons, List.cons_append]
          rw [ih k (by simpa using h)]

theorem foldl_set_enumFrom {α : Type} (l : List α) (k : Nat)
    (acc : List (Option α)) (h : k + l.length ≤ acc.length) :
    (l.enumFrom k).foldl (fun a e => a.set e.1 (some e.2)) acc
      = acc.take k ++ l.map some ++ acc.drop (k + l.length) := by
  induction l generalizing k acc with
  | nil => simp
  | cons x xs ih =>
      simp only [List.enumFrom, List.foldl_cons, List.map_cons, List.length_cons]
      have hk : k < acc.length := by simp at h; omega
      rw [ih (k + 1) (acc.set k (some x)) (by simp at h ⊢; omega)]
      rw [take_succ_set_self acc k (some x) hk]
      rw [List.drop_set]
      rw [if_pos (by omega)]
      simp only [List.append_assoc, List.singleton_append]
      congr 2
      congr 1
      omega

theorem collectSettled_perm (outcomes : List (Except String JVal))
    (events : List SettleEvent) (hp : events.Perm outcomes.enum) :
    collectSettled outcomes.length events = outcomes.map some := by
  unfold collectSettled
  have hcomm : ∀ x ∈ events, ∀ y ∈ events,
      ∀ z : List (Option (Except String JVal)),
        (z.set x.1 (some x.2)).set y.1 (some y.2)
          = (z.set y.1 (some y.2)).set x.1 (some x.2) := by
    intro x hx y hy z
    by_cases hxy : x.1 = y.1
    · have hx' : outcomes[x.1]? = some x.2 :=
        List.mem_enum_iff_getElem?.1 (hp.subset hx)
      have hy' : outcomes[y.1]? = some y.2 :=
        List.mem_enum_iff_getElem?.1 (hp.subset hy)
      rw [hxy] at hx'
      rw [hx'] at hy'
      have hv : x.2 = y.2 := by injection hy'
      rw [hxy, hv]
    · exact List.set_comm _ _ _ hxy
  rw [hp.foldl_eq' hcomm]
  have hfold := foldl_set_enumFrom outcomes 0 (List.replicate outcomes.length none)
    (by simp)
  simpa [List.enum] using hfold

theorem selectFromSettled_map_some (outcomes : List (Except String JVal)) :
    selectFromSettled (outcomes.map some) = selectFirstFulfilled outcomes := by
  induction outcomes with
  | nil => rfl
  | cons x xs ih =>
      cases x with
      | ok v => rfl
      | error e =>
          simp only [selectFromSettled, selectFirstFulfilled, List.map_cons,
            List.find?_cons] at ih ⊢
          exact ih

/-- C4: `Promise.allSettled` waits for every request (`collectSettled`
fills all `n` slots) and its result array lists outcomes in declaration
order regardless of the settle-event order (any permutation of the
per-endpoint outcomes), so line 136's first-fulfilled scan picks the
first endpoint in declaration order that fulfilled; in particular with a
rejecting first endpoint and a fulfilling second one, the second's
payload is selected whichever settles first. -/
theorem C4_aggregation_declaration_order :
    (∀ (outcomes : List (Except String JVal)) (events : List SettleEvent),
        events.Perm outcomes.enum →
        collectSettled outcomes.length events = outcomes.map some ∧
        selectFromSettled (collectSettled outcomes.length events)
          = selectFirstFulfilled outcomes) ∧
    (∀ (e : String) (v : JVal) (events : List SettleEvent),
        events.Perm ([Except.error e, Except.ok v].enum) →
        selectFromSettled (collectSettled 2 events) = v) := by
  constructor
  · intro outcomes events hp
    have h1 := collectSettled_perm outcomes events hp
    refine ⟨h1, ?_⟩
    rw [h1, selectFromSettled_map_some]
  · intro e v events hp
    have h1 := collectSettled_perm [Except.error e, Except.ok v] events hp
    simp only [List.length_cons, List.length_nil] at h1
    rw [show (2 : Nat) = 0 + 1 + 1 from rfl, h1]
    rfl

/-- C4 witness: two endpoints, the first rejecting and the second
fulfilling, with the second settling first; the second's payload is
selected. -/
theorem C4_aggregation_witness :
    selectFromSettled
        (collectSettled 2 [(1, Except.ok (JVal.str "payload")), (0, Except.error "boom")])
      = JVal.str "payload" :=
  C4_aggregation_declaration_order.2 "boom" (JVal.str "payload")
    [(1, Except.ok (JVal.str "payload")), (0, Except.error "boom")]
    (List.Perm.swap (0, Except.error "boom") (1, Except.ok (JVal.str "payload")) [])

/-! ## Address parsing (C5) -/

theorem jsSplitChar_length (sep : Char) (cs : List Char) :
    (jsSplitChar sep cs).length = cs.count sep + 1 := by
  induction cs with
  | nil => rfl
  | cons c tl ih =>
      by_cases hc : c = sep
      · subst hc
        simp only [jsSplitChar, eq_self_iff_true, if_true, List.length_cons,
          List.count_cons_self]
        omega
      · simp only [jsSplitChar, if_neg hc]
        rw [List.count_cons_of_ne (fun h => hc h.symm)]
        cases heq : jsSplitChar sep tl with
        | nil => rw [heq] at ih; simp at ih
        | cons h t =>
            rw [heq] at ih
            simp only [List.length_cons] at ih ⊢
            omega

theorem takeWhile_all_eq {p : Char → Bool} {l : List Char}
    (h : ∀ a ∈ l, p a) : l.takeWhile p = l := by
  have h2 : (l ++ []).takeWhile p = l ++ ([] : List Char).takeWhile p :=
    List.takeWhile_append_of_pos h
  simpa using h2

theorem digit_not_ws {c : Char} (h : c.isDigit = true) : isWsChar c = false := by
  simp only [isWsChar, Bool.or_eq_false_iff, decide_eq_false_iff_not]
  refine ⟨⟨⟨?_, ?_⟩, ?_⟩, ?_⟩ <;> rintro rfl <;> exact absurd h (by decide)

theorem jsParseInt_digits (ds : List Char) (hne : ds ≠ [])
    (hda : ∀ a ∈ ds, a.isDigit = true) :
    jsParseInt (String.mk ds) = some ((digitsVal ds : Int)) := by
  unfold jsParseInt
  have hdw : ds.dropWhile isWsChar = ds := by
    cases ds with
    | nil => rfl
    | cons d tl =>
        rw [List.dropWhile_cons_of_neg]
        simp [digit_not_ws (hda d (by simp))]
  simp only [hdw]
  have htw : ds.takeWhile Char.isDigit = ds := takeWhile_all_eq hda
  cases ds with
  | nil => exact absurd rfl hne
  | cons d tl =>
      have hd : d.isDigit = true := hda d (by simp)
      have hd1 : d ≠ '-' := by rintro rfl; exact absurd hd (by decide)
      have hd2 : d ≠ '+' := by rintro rfl; exact absurd hd (by decide)
      split
      next heq => rw [List.cons.injEq] at heq; exact absurd heq.1 hd1
      next heq => rw [List.cons.injEq] at heq; exact absurd heq.1 hd2
      next =>
        rw [htw]
        simp

theorem lastIdxOf_between (host ds : List Char) (h2 : ':' ∉ ds) :
    lastIdxOf ':' (host ++ ':' :: ds) = some host.length := by
  unfold lastIdxOf
  have hrev : (host ++ ':' :: ds).reverse = ds.reverse ++ ':' :: host.reverse := by
    simp
  rw [hrev]
  rw [List.findIdx?_append]
  have hnone : ds.reverse.findIdx? (fun x => x = ':') = none := by
    rw [List.findIdx?_eq_none_iff]
    intro x hx
    have hxne : x ≠ ':' := fun hxc => h2 (by rw [← hxc]; exact List.mem_reverse.1 hx)
    exact decide_eq_false hxne
  rw [hnone]
  have hfirst : (':' :: host.reverse).findIdx? (fun x => x = ':') = some 0 := by
    simp [List.findIdx?_cons]
  rw [hfirst]
  simp only [Option.none_or, Option.map_some']
  simp only [List.length_append, List.length_cons, List.length_reverse]
  congr 1
  omega

/-- C5: `parseServerAddress` implements exactly the spec's (a)–(e)
precedence (`specParseServerAddress`, written from the spec's words);
every single-colon `host:port` string whose suffix is an in-range decimal
port recovers exactly that host and port; `[2001:db8::1]:25565` parses to
host `2001:db8::1` with port `25565`; and the bare multi-colon
`2001:db8::1` stays whole with the default port. -/
theorem C5_parse_precedence :
    (∀ (address : String) (defaultPort : Int),
        parseServerAddress address defaultPort
          = specParseServerAddress address defaultPort) ∧
    (∀ (host : String) (ds : List Char) (d : Int),
        ':' ∉ host.data → host.data.head? ≠ some '[' →
        ds ≠ [] → (∀ a ∈ ds, a.isDigit = true) →
        1 ≤ digitsVal ds → digitsVal ds ≤ 65535 →
        parseServerAddress (host ++ ":" ++ String.mk ds) d
          = (host, (digitsVal ds : Int))) ∧
    parseServerAddress "[2001:db8::1]:25565" 19132 = ("2001:db8::1", 25565) ∧
    parseServerAddress "2001:db8::1" 25565 = ("2001:db8::1", 25565) := by
  refine ⟨?_, ?_, rfl, rfl⟩
  · intro address defaultPort
    have hcond : ∀ cs : List Char,
        ((jsSplitChar ':' cs).length > 2 : Bool) = (cs.count ':' > 1 : Bool) := by
      intro cs
      rw [jsSplitChar_length]
      exact decide_eq_decide.mpr (by omega)
    simp only [parseServerAddress, specParseServerAddress, hcond]
  · intro host ds d hnc hnb hne hdig h1 h65
    have hcs : (host ++ ":" ++ String.mk ds).data = host.data ++ ':' :: ds := by
      simp [String.data_append]
    have hdnc : ':' ∉ ds := by
      intro hmem
      exact absurd (hdig ':' hmem) (by decide)
    have hhead : (host.data ++ ':' :: ds).head? ≠ some '[' := by
      cases hh : host.data with
      | nil => simp
      | cons c tl =>
          simp only [List.cons_append, List.head?_cons, ne_eq, Option.some.injEq]
          intro hceq
          exact hnb (by rw [hh, hceq]; rfl)
    simp only [parseServerAddress]
    rw [hcs]
    have hm1 : ipv6WithPortMatch (host.data ++ ':' :: ds) = none := by
      unfold ipv6WithPortMatch
      rw [if_neg]
      intro hand
      exact hhead hand.2.1
    have hm2 : ipv6Match (host.data ++ ':' :: ds) = none := by
      unfold ipv6Match
      rw [if_neg]
      intro hand
      exact hhead hand.1
    rw [hm1, hm2]
    have hcount : (host.data ++ ':' :: ds).count ':' = 1 := by
      rw [List.count_append]
      rw [List.count_eq_zero.2 hnc]
      rw [List.count_cons_self]
      rw [List.count_eq_zero.2 hdnc]
    have hsplit : ((jsSplitChar ':' (host.data ++ ':' :: ds)).length > 2 : Bool) = false := by
      rw [jsSplitChar_length, hcount]
      decide
    rw [hsplit]
    have hdrop : (host.data ++ ':' :: ds).drop (host.data.length + 1) = ds := by
      have hsp : host.data ++ ':' :: ds = (host.data ++ [':']) ++ ds := by simp
      rw [hsp]
      exact List.drop_left' (by simp)
    have htake : (host.data ++ ':' :: ds).take host.data.length = host.data :=
      List.take_left host.data (':' :: ds)
    rw [lastIdxOf_between host.data ds hdnc]
    simp only [Bool.false_and, Bool.false_eq_true, if_false, hdrop, htake,
      jsParseInt_digits ds hne hdig]

/-- C5 witness: `mc.example.org:25565` recovers host and port exactly. -/
theorem C5_parse_witness :
    parseServerAddress ("mc.example.org" ++ ":" ++ String.mk ['2', '5', '5', '6', '5']) 19132
      = ("mc.example.org", (digitsVal ['2', '5', '5', '6', '5'] : Int)) :=
  C5_parse_precedence.2.1 "mc.example.org" ['2', '5', '5', '6', '5'] 19132
    (by decide) (by decide) (by decide) (by decide) (by decide) (by decide)

/-! ## The normalizer's offline branch (C6, C10) and edition field (C7) -/

theorem except_bind_ok {α β : Type} (a : α) (f : α → Except String β) :
    (Except.ok a >>= f) = f a := rfl

theorem except_bind_error {α β : Type} (e : String) (f : α → Except String β) :
    ((Except.error e : Except String α) >>= f) = Except.error e := rfl

theorem bind_eq_ok {α β : Type} {x : Except String α} {f : α → Except String β}
    {b : β} (h : (x >>= f) = .ok b) : ∃ a, x = .ok a ∧ f a = .ok b := by
  cases x with
  | ok a => exact ⟨a, rfl, h⟩
  | error e => rw [except_bind_error] at h; exact absurd h (by simp)

/-- Offline branch of the normalizer, fully evaluated: when the payload is
classified offline, the record is the line-159 literal. -/
theorem normalize_offline_eval (data : JVal) (address : String) (fam : Family)
    (h : isOfflineCheck data = .ok true) :
    normalizeApiResponse data address fam = .ok
      { online := .bool false, host := .str (hostFromAddrDef address),
        port := .num (portFromAddrDef address fam),
        players_online := .null, players_max := .null,
        error := jsOr (getPropOpt data "error") (getPropOpt data "description") } := by
  simp only [normalizeApiResponse, h, except_bind_ok]
  rfl

/-- Online branch of the normalizer: whenever it returns a record whose
`online` is truthy, the `edition` field is the line-201 expression. -/
theorem normalize_online_edition {data : JVal} {address : String} {fam : Family}
    {r : ServerStatusU}
    (hr : normalizeApiResponse data address fam = .ok r)
    (ho : truthy r.online = true) :
    r.edition = jsOr (getPropOpt data "edition")
      (if fam = .bedrock then .str "MCPE" else .null) := by
  simp only [normalizeApiResponse] at hr
  obtain ⟨b, hoc, hr⟩ := bind_eq_ok hr
  cases b with
  | true =>
      rw [if_pos rfl] at hr
      simp only [pure, Except.pure, Except.ok.injEq] at hr
      subst hr
      exact absurd ho (by simp [truthy])
  | false =>
      rw [if_neg (by simp)] at hr
      obtain ⟨hp, hhp, hr⟩ := bind_eq_ok hr
      obtain ⟨plv, hpl, hr⟩ := bind_eq_ok hr
      obtain ⟨ml, hml, hr⟩ := bind_eq_ok hr
      simp only [pure, Except.pure, Except.ok.injEq] at hr
      subst hr
      rfl

theorem jsSplitChar_ne_nil (sep : Char) (cs : List Char) :
    jsSplitChar sep cs ≠ [] := by
  intro h
  have hlen := jsSplitChar_length sep cs
  rw [h] at hlen
  simp at hlen

theorem jsSplitChar_headD (sep : Char) (cs : List Char) :
    (jsSplitChar sep cs).headD [] = cs.takeWhile (fun c => c ≠ sep) := by
  induction cs with
  | nil => rfl
  | cons c tl ih =>
      by_cases hc : c = sep
      · subst hc
        simp [jsSplitChar]
      · simp only [jsSplitChar, if_neg hc]
        cases heq : jsSplitChar sep tl with
        | nil => exact absurd heq (jsSplitChar_ne_nil sep tl)
        | cons h t =>
            rw [heq] at ih
            simp only [List.headD_cons] at ih ⊢
            rw [List.takeWhile_cons_of_pos (by simpa using hc)]
            rw [ih]

theorem jsSplitChar_tail_head (sep : Char) (cs : List Char) :
    (jsSplitChar sep cs).tail.head? =
      ((cs.dropWhile (fun c => c ≠ sep)).tail?).map
        (fun tl => tl.takeWhile (fun c => c ≠ sep)) := by
  induction cs with
  | nil => rfl
  | cons c tl ih =>
      by_cases hc : c = sep
      · subst hc
        simp only [jsSplitChar, eq_self_iff_true, if_true]
        rw [List.dropWhile_cons_of_neg (by simp)]
        simp only [List.tail?_cons, Option.map_some']
        cases heq : jsSplitChar c tl with
        | nil => exact absurd heq (jsSplitChar_ne_nil c tl)
        | cons h t =>
            have hh := jsSplitChar_headD c tl
            rw [heq] at hh
            simp only [List.headD_cons] at hh
            simp only [List.tail_cons, List.head?_cons]
            rw [hh]
      · simp only [jsSplitChar, if_neg hc]
        have hstep : List.dropWhile (fun x => (x ≠ sep : Bool)) (c :: tl)
            = List.dropWhile (fun x => (x ≠ sep : Bool)) tl :=
          List.dropWhile_cons_of_pos (decide_eq_true hc)
        rw [hstep]
        cases heq : jsSplitChar sep tl with
        | nil => exact absurd heq (jsSplitChar_ne_nil sep tl)
        | cons h t =>
            rw [heq] at ih
            simp only [List.tail_cons] at ih ⊢
            exact ih

theorem hostFromAddrDef_eq (address : String) :
    hostFromAddrDef address = offlineHostOfAddress address := by
  unfold hostFromAddrDef offlineHostOfAddress
  rw [jsSplitChar_headD]

theorem portFromAddrDef_eq (address : String) (fam : Family) :
    portFromAddrDef address fam = offlinePortOfAddress address fam := by
  unfold portFromAddrDef offlinePortOfAddress
  rw [jsSplitChar_tail_head]
  cases hd : address.data.dropWhile (fun c => c ≠ ':') with
  | nil => rfl
  | cons x tl => rfl

/-- C6 (amended): every payload classified offline yields
`players.online = players.max = null`, and `error` is `data.error` when
truthy, else the value of `data.description` — absent when the payload
supplies neither. -/
theorem C6_offline_fields_amended :
    ∀ (data : JVal) (address : String) (fam : Family),
      isOfflineCheck data = .ok true →
      ∃ r, normalizeApiResponse data address fam = .ok r ∧
        r.players_online = .null ∧ r.players_max = .null ∧
        r.error = jsOr (getPropOpt data "error") (getPropOpt data "description") :=
  fun data address fam h =>
    ⟨_, normalize_offline_eval data address fam h, rfl, rfl, rfl⟩

/-- C6 witness: an offline payload with only a `description`. -/
theorem C6_offline_witness :
    ∃ r, normalizeApiResponse
        (.obj [("online", .bool false), ("description", .str "maintenance")])
        "example.com" .java = .ok r ∧
      r.players_online = .null ∧ r.players_max = .null ∧
      r.error = jsOr
        (getPropOpt (.obj [("online", .bool false), ("description", .str "maintenance")]) "error")
        (getPropOpt (.obj [("online", .bool false), ("description", .str "maintenance")]) "description") :=
  C6_offline_fields_amended
    (.obj [("online", .bool false), ("description", .str "maintenance")])
    "example.com" .java rfl

/-- C7 (amended): under the Java family an online record's `edition` is
never absent — it is the payload's edition when truthy and otherwise
`null`; under the Bedrock family with no truthy payload edition it
defaults to the `'MCPE'` Bedrock tag. -/
theorem C7_edition_amended :
    (∀ (data : JVal) (address : String) (r : ServerStatusU),
        normalizeApiResponse data address .java = .ok r →
        truthy r.online = true →
        r.edition = jsOr (getPropOpt data "edition") JVal.null) ∧
    (∀ (data : JVal) (address : String) (r : ServerStatusU),
        normalizeApiResponse data address .bedrock = .ok r →
        truthy r.online = true →
        truthy (getPropOpt data "edition") = false →
        r.edition = .str "MCPE") := by
  constructor
  · intro data address r hr ho
    have h := normalize_online_edition hr ho
    simpa using h
  · intro data address r hr ho hed
    have h := normalize_online_edition hr ho
    rw [h]
    simp [jsOr, hed]

/-- C7 witness: an empty payload under each family. -/
theorem C7_edition_witness :
    (∃ r, normalizeApiResponse (.obj []) "h" .java = .ok r ∧
        r.edition = jsOr (getPropOpt (.obj []) "edition") JVal.null) ∧
    (∃ r, normalizeApiResponse (.obj []) "h" .bedrock = .ok r ∧
        r.edition = .str "MCPE") :=
  ⟨⟨_, rfl, C7_edition_amended.1 (.obj []) "h" _ rfl rfl⟩,
   ⟨_, rfl, C7_edition_amended.2 (.obj []) "h" _ rfl rfl rfl⟩⟩

/-- C10: for every payload classified offline, the reported host is the
fallback address's text strictly before its first colon, and the port is
the value `parseInt` extracts from the text between the first and second
colons when that is a non-zero number, else the family default — so a
bracketed IPv6 fallback `[2001:db8::1]:25565` under the Bedrock family
reports host `[2001` and port `19132`, not the IPv6 literal and `25565`. -/
theorem C10_offline_host_port :
    (∀ (data : JVal) (address : String) (fam : Family),
        isOfflineCheck data = .ok true →
        ∃ r, normalizeApiResponse data address fam = .ok r ∧
          r.host = .str (offlineHostOfAddress address) ∧
          r.port = .num (offlinePortOfAddress address fam)) ∧
    (∃ r, normalizeApiResponse (.obj [("online", .bool false)])
        "[2001:db8::1]:25565" .bedrock = .ok r ∧
        r.host = .str "[2001" ∧ r.port = .num 19132) := by
  constructor
  · intro data address fam h
    refine ⟨_, normalize_offline_eval data address fam h, ?_, ?_⟩
    · rw [hostFromAddrDef_eq]
    · rw [portFromAddrDef_eq]
  · exact ⟨_, rfl, rfl, rfl⟩

/-- C10 witness: a plain `host:port` fallback address. -/
theorem C10_offline_witness :
    ∃ r, normalizeApiResponse (.obj [("online", .bool false)])
        "example.com:7777" .java = .ok r ∧
      r.host = .str (offlineHostOfAddress "example.com:7777") ∧
      r.port = .num (offlinePortOfAddress "example.com:7777" .java) :=
  C10_offline_host_port.1 (.obj [("online", .bool false)]) "example.com:7777"
    .java rfl

/-! ## Renderer per-line rule (C8) -/

theorem processLine_drop {status : ServerStatus} {l : List Char}
    (hall : (linePlaceholders l).length > 0 ∧ (linePlaceholders l).all
      (fun p => !truthyS (getValue status (String.mk p.1) p.2))) :
    processLine status l = [] := by
  simp only [processLine]
  rw [if_pos hall]

theorem processLine_subst {status : ServerStatus} {l : List Char}
    (hall : ¬ ((linePlaceholders l).length > 0 ∧ (linePlaceholders l).all
      (fun p => !truthyS (getValue status (String.mk p.1) p.2)))) :
    processLine status l = substLine status l := by
  simp only [processLine]
  rw [if_neg hall]

theorem processLine_filter (status : ServerStatus) (lines : List (List Char)) :
    (lines.map (processLine status)).filter (fun l => !(trimChars l).isEmpty)
      = lines.filterMap (renderSpecLine status) := by
  induction lines with
  | nil => rfl
  | cons l ls ih =>
      simp only [List.map_cons, List.filter_cons, List.filterMap_cons]
      by_cases hall : (linePlaceholders l).length > 0 ∧ (linePlaceholders l).all
          (fun p => !truthyS (getValue status (String.mk p.1) p.2))
      · have hrs : renderSpecLine status l = none := by
          simp only [renderSpecLine]
          rw [if_pos (Or.inl hall)]
        rw [processLine_drop hall, hrs]
        simpa using ih
      · rw [processLine_subst hall]
        by_cases hb : (trimChars (substLine status l)).isEmpty = true
        · have hrs : renderSpecLine status l = none := by
            simp only [renderSpecLine]
            rw [if_pos (Or.inr hb)]
          rw [hrs]
          simpa [hb] using ih
        · have hrs : renderSpecLine status l = some (substLine status l) := by
            simp only [renderSpecLine]
            rw [if_neg]
            rintro (h | h)
            · exact hall h
            · exact hb h
          rw [hrs]
          simpa [hb] using ih

/-- C8 (amended): the renderer drops a line exactly when it has at least
one placeholder all of which resolve falsy, or when its substituted form
is whitespace-only (`renderSpec` restates the per-line pipeline that way);
otherwise the substituted line is kept.  The spec's own example renders
`"Ping: {ping}\nPlayers: {online}/{max}"` with absent latency and 5/20
players to exactly `"Players: 5/20"`. -/
theorem C8_per_line_rule_amended :
    (∀ (status : ServerStatus) (template : String),
        formatServerStatus status template = renderSpec status template) ∧
    formatServerStatus demoStatus "Ping: {ping}\nPlayers: {online}/{max}"
      = "Players: 5/20" := by
  constructor
  · intro status template
    simp only [formatServerStatus, renderSpec]
    by_cases ho : status.online
    · simp only [ho, Bool.not_true, Bool.false_eq_true, if_false]
      rw [processLine_filter]
    · simp only [Bool.not_eq_true] at ho
      simp only [ho, Bool.not_false, if_true]
  · rfl

/-! ## Blank-line collapse and trimming (C9) -/

theorem nlRunBound_notNl {c : Char} (hc : ¬ c = '\n') (tl : List Char)
    (j j' : Nat) : nlRunBound (c :: tl) j = nlRunBound (c :: tl) j' := by
  simp [nlRunBound, hc]

theorem nlRunBound_mono : ∀ (l : List Char) (k k' : Nat), k' ≤ k →
    nlRunBound l k = true → nlRunBound l k' = true := by
  intro l
  induction l with
  | nil => intro k k' _ _; rfl
  | cons c tl ih =>
      intro k k' hkk h
      by_cases hc : c = '\n'
      · subst hc
        simp only [nlRunBound, eq_self_iff_true, if_true] at h ⊢
        by_cases hk : k ≥ 2
        · rw [if_pos hk] at h
          exact absurd h (by simp)
        · rw [if_neg hk] at h
          rw [if_neg (by omega)]
          exact ih (k + 1) (k' + 1) (by omega) h
      · simp only [nlRunBound, if_neg hc] at h ⊢
        exact h

theorem nlRunBound_suffix : ∀ (l s : List Char), s <:+ l →
    nlRunBound l 0 = true → nlRunBound s 0 = true := by
  intro l
  induction l with
  | nil => intro s hs h; rw [List.suffix_nil.1 hs]; rfl
  | cons c tl ih =>
      intro s hs h
      rcases List.suffix_cons_iff.1 hs with heq | hsuf
      · rw [heq]; exact h
      · refine ih s hsuf ?_
        by_cases hc : c = '\n'
        · subst hc
          simp only [nlRunBound, eq_self_iff_true, if_true] at h
          rw [if_neg (by omega)] at h
          exact nlRunBound_mono tl 1 0 (by omega) h
        · simpa only [nlRunBound, if_neg hc] using h

theorem nlRunBound_prefix : ∀ (l p : List Char) (k : Nat), p <+: l →
    nlRunBound l k = true → nlRunBound p k = true := by
  intro l
  induction l with
  | nil => intro p k hp _; rw [List.prefix_nil.1 hp]; rfl
  | cons c tl ih =>
      intro p k hp h
      cases p with
      | nil => rfl
      | cons c' p' =>
          obtain ⟨hcc, hp'⟩ := List.cons_prefix_cons.1 hp
          subst hcc
          by_cases hc : c' = '\n'
          · subst hc
            simp only [nlRunBound, eq_self_iff_true, if_true] at h ⊢
            by_cases hk : k ≥ 2
            · rw [if_pos hk] at h
              exact absurd h (by simp)
            · rw [if_neg hk] at h
              rw [if_neg hk]
              exact ih p' (k + 1) hp' h
          · simp only [nlRunBound, if_neg hc] at h ⊢
            exact ih p' 0 hp' h

theorem nlRunBound_emit (k : Nat) : nlRunBound (emitNlRun k) 0 = true := by
  by_cases hk : k ≥ 3
  · simp only [emitNlRun, if_pos hk]
    decide
  · simp only [emitNlRun, if_neg hk]
    interval_cases k <;> decide

theorem nlRunBound_emit_cons {c : Char} (hc : ¬ c = '\n') (k : Nat)
    (X : List Char) (hX : nlRunBound X 0 = true) :
    nlRunBound (emitNlRun k ++ c :: X) 0 = true := by
  have hcX : ∀ j, nlRunBound (c :: X) j = true := by
    intro j
    rw [nlRunBound_notNl hc X j 0]
    simpa only [nlRunBound, if_neg hc] using hX
  by_cases hk : k ≥ 3
  · simp only [emitNlRun, if_pos hk, List.cons_append, List.nil_append]
    simp only [nlRunBound, eq_self_iff_true, if_true]
    rw [if_neg (by omega), if_neg (by omega)]
    exact hcX 2
  · simp only [emitNlRun, if_neg hk]
    interval_cases k
    · simpa using hcX 0
    · simp only [List.replicate, List.cons_append, List.nil_append]
      simp only [nlRunBound, eq_self_iff_true, if_true]
      rw [if_neg (by omega)]
      exact hcX 1
    · simp only [List.replicate, List.cons_append, List.nil_append]
      simp only [nlRunBound, eq_self_iff_true, if_true]
      rw [if_neg (by omega), if_neg (by omega)]
      exact hcX 2

theorem collapseNlAux_bound : ∀ (cs : List Char) (k : Nat),
    nlRunBound (collapseNlAux cs k) 0 = true := by
  intro cs
  induction cs with
  | nil => intro k; exact nlRunBound_emit k
  | cons c tl ih =>
      intro k
      by_cases hc : c = '\n'
      · subst hc
        simp only [collapseNlAux, eq_self_iff_true, if_true]
        exact ih (k + 1)
      · simp only [collapseNlAux, if_neg hc]
        exact nlRunBound_emit_cons hc k (collapseNlAux tl 0) (ih 0)

theorem dropWhile_head_not {p : Char → Bool} :
    ∀ (l : List Char) {a : Char} {t : List Char},
      l.dropWhile p = a :: t → p a = false := by
  intro l
  induction l with
  | nil => intro a t h; simp at h
  | cons c tl ih =>
      intro a t h
      by_cases hp : p c
      · rw [List.dropWhile_cons_of_pos hp] at h
        exact ih h
      · rw [List.dropWhile_cons_of_neg hp] at h
        cases h
        simpa using hp

theorem trimRight_prefix : ∀ l : List Char, trimRight l <+: l := by
  intro l
  induction l with
  | nil => exact List.prefix_refl []
  | cons c tl ih =>
      simp only [trimRight]
      cases heq : trimRight tl with
      | nil =>
          by_cases hw : isWsChar c
          · rw [if_pos hw]; exact List.nil_prefix
          · rw [if_neg hw]
            exact List.cons_prefix_cons.2 ⟨rfl, List.nil_prefix⟩
      | cons r rs =>
          rw [heq] at ih
          exact List.cons_prefix_cons.2 ⟨rfl, ih⟩

theorem trimRight_cons_eq {tl : List Char} {x : Char} {xs : List Char}
    (h : trimRight tl = x :: xs) (c : Char) :
    trimRight (c :: tl) = c :: x :: xs := by
  simp only [trimRight, h]

theorem trimRight_idem : ∀ l : List Char, trimRight (trimRight l) = trimRight l := by
  intro l
  induction l with
  | nil => rfl
  | cons c tl ih =>
      cases heq : trimRight tl with
      | nil =>
          simp only [trimRight, heq]
          by_cases hw : isWsChar c
          · rw [if_pos hw]; rfl
          · rw [if_neg hw]
            simp only [trimRight]
            rw [if_neg hw]
      | cons r rs =>
          rw [heq] at ih
          rw [trimRight_cons_eq heq c]
          exact trimRight_cons_eq ih c

theorem dropWhile_trimRight {l : List Char} (hl : l.dropWhile isWsChar = l) :
    (trimRight l).dropWhile isWsChar = trimRight l := by
  cases heq : trimRight l with
  | nil => rfl
  | cons c t =>
      have hpre := trimRight_prefix l
      rw [heq] at hpre
      cases l with
      | nil => simp [trimRight] at heq
      | cons a tl =>
          obtain ⟨hac, _⟩ := List.cons_prefix_cons.1 hpre
          subst hac
          have ha : isWsChar c = false := by
            by_cases hw : isWsChar c
            · rw [List.dropWhile_cons_of_pos hw] at hl
              have hlen := congrArg List.length hl
              have hle : (List.dropWhile isWsChar tl).length ≤ tl.length :=
                List.IsSuffix.length_le (List.dropWhile_suffix isWsChar)
              simp only [List.length_cons] at hlen
              omega
            · simpa using hw
          rw [List.dropWhile_cons_of_neg (by simp [ha])]

theorem trimChars_idem (l : List Char) : trimChars (trimChars l) = trimChars l := by
  unfold trimChars trimLeft
  have h1 : (List.dropWhile isWsChar l).dropWhile isWsChar
      = List.dropWhile isWsChar l := by
    cases heq : List.dropWhile isWsChar l with
    | nil => rfl
    | cons a t =>
        rw [List.dropWhile_cons_of_neg (by simp [dropWhile_head_not l heq])]
  rw [dropWhile_trimRight h1, trimRight_idem]

/-- C9 (amended): template-level blank lines are removed entirely by the
blank-line filter, so the rendered output never contains three consecutive
newlines (two consecutive blank lines) and is trimmed of leading and
trailing whitespace; runs of newlines inside one substituted placeholder
value do survive to the collapse step — a MOTD of `"x\n\n\n\ny"` renders
as `"x\n\ny"`, one blank line preserved at that position. -/
theorem C9_collapse_amended :
    (∀ (status : ServerStatus) (template : String),
        status.online = true →
        noTripleNl (formatServerStatus status template).data = true ∧
        trimChars (formatServerStatus status template).data
          = (formatServerStatus status template).data) ∧
    formatServerStatus nlMotdStatus "{motd}" = "x\n\ny" := by
  constructor
  · intro status template ho
    simp only [formatServerStatus, ho, Bool.not_true, Bool.false_eq_true, if_false]
    constructor
    · unfold noTripleNl trimChars trimLeft
      have hcol := collapseNlAux_bound
        (joinNl (((jsSplitChar '\n' template.data).map (processLine status)).filter
          (fun l => !(trimChars l).isEmpty))) 0
      exact nlRunBound_prefix _ _ 0 ( trimRight_prefix _)
        (nlRunBound_suffix _ _ (List.dropWhile_suffix isWsChar) hcol)
    · exact trimChars_idem _
  · rfl

/-- C9 witness: a two-line template under an online status. -/
theorem C9_collapse_witness :
    noTripleNl (formatServerStatus demoStatus "Players: {online}/{max}").data = true ∧
    trimChars (formatServerStatus demoStatus "Players: {online}/{max}").data
      = (formatServerStatus demoStatus "Players: {online}/{max}").data :=
  C9_collapse_amended.1 demoStatus "Players: {online}/{max}" rfl

end McTools
